import Mathlib

/-!
Verification development for the ESP32 WiFi repeater core
(`src/main/wifi_repeater_main.c`).

The C code is shallowly embedded:

* Ethernet frames are byte lists (`List Nat`, one entry per octet);
  `byteAt f i` is `f[i]` with out-of-range reads giving 0 (the C code
  never reads out of range on the paths modelled here, because every
  access is guarded by a length check that the model reproduces).
* 32-bit quantities that the C code obtains with `memcpy` from a frame
  followed by `ntohl` are modelled directly as the host-order number
  `read_be32`; the network-byte-order representation and `ntohl`/`htonl`
  cancel, and all the code does with these values is compare them for
  equality, store them, or (after `ntohl`) do `uint32_t` arithmetic,
  which is modelled as arithmetic modulo `U32 = 2^32`.
* The MAC-NAT table `s_macnat[MACNAT_MAX]` is a `List MacnatEntry` of
  length 8; `esp_timer_get_time()` is an explicit `now : Int` parameter.
* The bridging state machine (worker task + WiFi event handler) is a
  small-step transition system `Step` over the global flags, described
  in detail at its definition site.
-/

namespace WifiRep

/-! ### Byte-level frame primitives -/

/-- Read one octet of a frame; out-of-range reads give 0. -/
def byteAt (f : List Nat) (i : Nat) : Nat := f.getD i 0

/-- The six octets starting at offset `i` (a hardware address field). -/
def macAt (f : List Nat) (i : Nat) : List Nat :=
  [byteAt f i, byteAt f (i+1), byteAt f (i+2), byteAt f (i+3), byteAt f (i+4), byteAt f (i+5)]

/-- A 32-bit value read from the frame at offset `i`, as the host-order
number (the code reads it with `memcpy` and converts with `ntohl`). -/
def read_be32 (f : List Nat) (i : Nat) : Nat :=
  byteAt f i * 0x1000000 + byteAt f (i+1) * 0x10000 + byteAt f (i+2) * 0x100 + byteAt f (i+3)

/-- A 16-bit big-endian value read from the frame at offset `i`. -/
def read_be16 (f : List Nat) (i : Nat) : Nat :=
  byteAt f i * 0x100 + byteAt f (i+1)

/-- `memcpy(&f[i], src, src.length)`: overwrite consecutive octets. -/
def memcpyAt : List Nat → Nat → List Nat → List Nat
  | f, _, [] => f
  | f, i, b :: rest => memcpyAt (f.set i b) (i+1) rest

theorem length_memcpyAt (src : List Nat) : ∀ (f : List Nat) (i : Nat),
    (memcpyAt f i src).length = f.length := by
  induction src with
  | nil => intro f i; rfl
  | cons b rest ih => intro f i; simp [memcpyAt, ih]

theorem byteAt_set_ne (f : List Nat) (i j v : Nat) (h : i ≠ j) :
    byteAt (f.set i v) j = byteAt f j := by
  simp [byteAt, List.getElem?_set, h]

theorem byteAt_set_self (f : List Nat) (i v : Nat) (h : i < f.length) :
    byteAt (f.set i v) i = v := by
  simp [byteAt, List.getElem?_set, h]

theorem byteAt_memcpyAt_of_lt (src : List Nat) : ∀ (f : List Nat) (i j : Nat), j < i →
    byteAt (memcpyAt f i src) j = byteAt f j := by
  induction src with
  | nil => intro f i j _; rfl
  | cons b rest ih =>
    intro f i j hj
    rw [memcpyAt, ih (f.set i b) (i+1) j (Nat.lt_succ_of_lt hj),
      byteAt_set_ne f i j b (Nat.ne_of_gt hj)]

/-! ### MAC-NAT table (`s_macnat`, `macnat_learn`, `macnat_lookup_by_ip`, `macnat_clear`) -/

/-- One slot of `s_macnat[MACNAT_MAX]`. `ip` is the IPv4 key (stored in
network byte order in C; here as the number `read_be32` yields),
`real_mac` the six octets of the client hardware address, `last_seen`
the `esp_timer_get_time()` stamp. -/
structure MacnatEntry where
  ip : Nat
  real_mac : List Nat
  last_seen : Int
  used : Bool
deriving DecidableEq, Repr

def MACNAT_MAX : Nat := 8

def entryDefault : MacnatEntry := ⟨0, [], 0, false⟩

/-- `s_macnat[i]` (the table always has length `MACNAT_MAX`). -/
def getEntry (t : List MacnatEntry) (i : Nat) : MacnatEntry := t.getD i entryDefault

/-- The test `mac[0] & 0x01` rejecting broadcast/multicast addresses. -/
def mac_is_mcast (mac : List Nat) : Bool := (mac.headD 0) &&& 0x01 != 0

/-- The scan loop of `macnat_learn` (wifi_repeater_main.c:267-289) together
with the insertion that follows it (lines 291-296): walk the slots from
index `i`, tracking the first free slot and the least-recently-seen used
slot exactly as the C loop does, returning early on an IP or MAC match.
The second argument is the number of iterations left, `MACNAT_MAX - i`,
so that the recursion is structural; when it reaches 0 the loop is over
and the insertion of lines 291-296 runs. -/
def learnGo (t : List MacnatEntry) (ip : Nat) (mac : List Nat) (now : Int) :
    Nat → Nat → Option Nat → Nat → List MacnatEntry
  | _, 0, free_idx, oldest_idx =>
    t.set (free_idx.getD oldest_idx) { ip := ip, real_mac := mac, last_seen := now, used := true }
  | i, n+1, free_idx, oldest_idx =>
    let e := getEntry t i
    if e.used then
      if e.ip = ip then
        (if e.real_mac = mac then t
         else t.set i { e with real_mac := mac, last_seen := now })
      else if e.real_mac = mac then
        t.set i { e with ip := ip, last_seen := now }
      else
        learnGo t ip mac now (i+1) n free_idx
          (if e.last_seen < (getEntry t oldest_idx).last_seen then i else oldest_idx)
    else
      learnGo t ip mac now (i+1) n (if free_idx.isNone then some i else free_idx) oldest_idx

/-- `macnat_learn(ip_n, mac)` (wifi_repeater_main.c:259-299) with the
timestamp made explicit. -/
def macnat_learn (t : List MacnatEntry) (ip_n : Nat) (mac : List Nat) (now : Int) :
    List MacnatEntry :=
  if mac_is_mcast mac ∨ ip_n = 0 then t
  else learnGo t ip_n mac now 0 MACNAT_MAX none 0

/-- `macnat_lookup_by_ip` (wifi_repeater_main.c:301-309). -/
def macnat_lookup_by_ip (t : List MacnatEntry) (ip_n : Nat) : Option (List Nat) :=
  (t.find? (fun e => e.used && e.ip == ip_n)).map MacnatEntry.real_mac

/-- `macnat_clear` (wifi_repeater_main.c:311-314). -/
def macnat_clear : List MacnatEntry :=
  List.replicate MACNAT_MAX entryDefault

/-- Slot `i` makes the scan loop return: it is used and matches the IP or
the MAC being learned. -/
def hitsAt (t : List MacnatEntry) (ip : Nat) (mac : List Nat) (i : Nat) : Prop :=
  (getEntry t i).used = true ∧ ((getEntry t i).ip = ip ∨ (getEntry t i).real_mac = mac)

instance (t : List MacnatEntry) (ip : Nat) (mac : List Nat) (i : Nat) :
    Decidable (hitsAt t ip mac i) := by
  unfold hitsAt; infer_instance

/-- What the scan loop does at the first matching slot. -/
def hitResult (t : List MacnatEntry) (ip : Nat) (mac : List Nat) (now : Int) (j : Nat) :
    List MacnatEntry :=
  let e := getEntry t j
  if e.ip = ip then
    (if e.real_mac = mac then t
     else t.set j { e with real_mac := mac, last_seen := now })
  else t.set j { e with ip := ip, last_seen := now }

theorem getEntry_set_self (t : List MacnatEntry) (i : Nat) (e : MacnatEntry)
    (h : i < t.length) : getEntry (t.set i e) i = e := by
  simp [getEntry, List.getElem?_set, h]

theorem getEntry_set_ne (t : List MacnatEntry) (i j : Nat) (e : MacnatEntry)
    (h : i ≠ j) : getEntry (t.set i e) j = getEntry t j := by
  simp [getEntry, List.getElem?_set, h]

/-- The scan loop, started at `i` with enough iterations left and the
first matching slot at `j ≥ i`, performs exactly the update described by
`hitResult` at `j`; the `free_idx`/`oldest_idx` accumulators are
irrelevant on this path. -/
theorem learnGo_hit (t : List MacnatEntry) (ip : Nat) (mac : List Nat) (now : Int)
    (j : Nat) (hhit : hitsAt t ip mac j) :
    ∀ (n i : Nat) (f : Option Nat) (o : Nat), i ≤ j → j < i + n →
      (∀ k, i ≤ k → k < j → ¬ hitsAt t ip mac k) →
      learnGo t ip mac now i n f o = hitResult t ip mac now j := by
  intro n
  induction n with
  | zero =>
    intro i f o hij hlt _hpre
    omega
  | succ m ih =>
    intro i f o hij hlt hpre
    rcases Nat.eq_or_lt_of_le hij with heq | hilt
    · subst heq
      obtain ⟨hused, hmatch⟩ := hhit
      rw [learnGo]
      simp only [hused, if_true]
      by_cases hip : (getEntry t i).ip = ip
      · simp only [hitResult, hip, if_true, hused]
      · have hmac : (getEntry t i).real_mac = mac := by
          rcases hmatch with h | h
          · exact absurd h hip
          · exact h
        simp only [hitResult, hip, if_false, hmac, if_true, reduceIte, hused]
    · have hnohit : ¬ hitsAt t ip mac i := hpre i le_rfl hilt
      rw [learnGo]
      by_cases hu : (getEntry t i).used = true
      · have hnip : ¬ (getEntry t i).ip = ip := fun h => hnohit ⟨hu, Or.inl h⟩
        have hnmac : ¬ (getEntry t i).real_mac = mac := fun h => hnohit ⟨hu, Or.inr h⟩
        simp only [hu, if_true, hnip, if_false, hnmac, reduceIte]
        exact ih (i+1) f _ (by omega) (by omega) (fun k hk1 hk2 => hpre k (by omega) hk2)
      · simp only [hu, if_false, Bool.false_eq_true, reduceIte]
        exact ih (i+1) _ o (by omega) (by omega) (fun k hk1 hk2 => hpre k (by omega) hk2)

/-- Whatever branch `macnat_learn`'s loop takes, the resulting table agrees
with the input everywhere except one slot `j`, that slot now carries
`(ip, mac)` as a used entry, and no slot before `j` matched the scan. -/
theorem learnGo_shape (t : List MacnatEntry) (ip : Nat) (mac : List Nat) (now : Int)
    (hlen : t.length = MACNAT_MAX) :
    ∀ (n i : Nat) (f : Option Nat) (o : Nat), i + n = MACNAT_MAX →
      (∀ v, f = some v → v < MACNAT_MAX) → o < MACNAT_MAX →
      (∀ k, k < i → ¬ hitsAt t ip mac k) →
      ∃ j, j < MACNAT_MAX ∧ (∀ k, k < j → ¬ hitsAt t ip mac k) ∧
        (getEntry (learnGo t ip mac now i n f o) j).used = true ∧
        (getEntry (learnGo t ip mac now i n f o) j).ip = ip ∧
        (getEntry (learnGo t ip mac now i n f o) j).real_mac = mac ∧
        (∀ k, k ≠ j → getEntry (learnGo t ip mac now i n f o) k = getEntry t k) := by
  intro n
  induction n with
  | zero =>
    intro i f o hn hf ho hpre
    rw [learnGo]
    have hidx : f.getD o < MACNAT_MAX := by
      cases f with
      | none => exact ho
      | some v => exact hf v rfl
    have hset : getEntry (t.set (f.getD o) ⟨ip, mac, now, true⟩) (f.getD o) =
        ⟨ip, mac, now, true⟩ := getEntry_set_self t _ _ (by omega)
    refine ⟨f.getD o, hidx, ?_, ?_, ?_, ?_, ?_⟩
    · intro k hk
      exact hpre k (by omega)
    · rw [hset]
    · rw [hset]
    · rw [hset]
    · intro k hk
      exact getEntry_set_ne t _ k _ (fun h => hk h.symm)
  | succ m ih =>
    intro i f o hn hf ho hpre
    have hi8 : i < MACNAT_MAX := by omega
    rw [learnGo]
    by_cases hu : (getEntry t i).used = true
    · by_cases hip : (getEntry t i).ip = ip
      · by_cases hmac : (getEntry t i).real_mac = mac
        · simp only [hu, if_true, hip, hmac, reduceIte]
          refine ⟨i, hi8, hpre, hu, hip, hmac, ?_⟩
          simp
        · simp only [hu, if_true, hip, hmac, reduceIte]
          have hset := getEntry_set_self t i ⟨ip, mac, now, true⟩ (by omega)
          refine ⟨i, hi8, hpre, ?_, ?_, ?_, ?_⟩
          · rw [hset]
          · rw [hset]
          · rw [hset]
          · intro k hk; exact getEntry_set_ne t i k _ (fun h => hk h.symm)
      · by_cases hmac : (getEntry t i).real_mac = mac
        · simp only [hu, if_true, hip, hmac, reduceIte]
          have hset := getEntry_set_self t i ⟨ip, mac, now, true⟩ (by omega)
          refine ⟨i, hi8, hpre, ?_, ?_, ?_, ?_⟩
          · rw [hset]
          · rw [hset]
          · rw [hset]
          · intro k hk; exact getEntry_set_ne t i k _ (fun h => hk h.symm)
        · simp only [hu, if_true, hip, hmac, reduceIte]
          refine ih (i+1) f _ (by omega) hf ?_ ?_
          · split
            · exact hi8
            · exact ho
          · intro k hk
            rcases Nat.lt_or_ge k i with h | h
            · exact hpre k h
            · have hki : k = i := by omega
              subst hki
              exact fun hh => (by
                rcases hh.2 with h2 | h2
                · exact hip h2
                · exact hmac h2 : False)
    · simp only [hu, if_false, Bool.false_eq_true, reduceIte]
      refine ih (i+1) _ o (by omega) ?_ ho ?_
      · intro v hv
        split at hv
        · cases hv; exact hi8
        · exact hf v hv
      · intro k hk
        rcases Nat.lt_or_ge k i with h | h
        · exact hpre k h
        · have hki : k = i := by omega
          subst hki
          exact fun hh => hu hh.1

/-- A table whose first matching slot for `(ip, mac)` already carries
exactly `(ip, mac)` is left untouched by the scan loop: the hot path of
lines 269-271 returns without any write. -/
theorem learnGo_self (u : List MacnatEntry) (ip : Nat) (mac : List Nat) (now2 : Int)
    (j : Nat) (hj : j < MACNAT_MAX)
    (hu : (getEntry u j).used = true) (hui : (getEntry u j).ip = ip)
    (hum : (getEntry u j).real_mac = mac)
    (hpre : ∀ k, k < j → ¬ hitsAt u ip mac k) :
    learnGo u ip mac now2 0 MACNAT_MAX none 0 = u := by
  rw [learnGo_hit u ip mac now2 j ⟨hu, Or.inl hui⟩ MACNAT_MAX 0 none 0 (Nat.zero_le j)
    (by omega) (fun k _ hk2 => hpre k hk2)]
  simp only [hitResult, hui, if_true, hum]

/-- Shape of `macnat_learn` on a valid `(ip, mac)`: one slot (the first
one the scan accepts) ends up used with exactly `(ip, mac)`, every other
slot is untouched, and no earlier slot matches the scan. -/
theorem macnat_learn_shape (t : List MacnatEntry) (ip : Nat) (mac : List Nat) (now : Int)
    (hlen : t.length = MACNAT_MAX) (hmc : mac_is_mcast mac = false) (hip : ip ≠ 0) :
    ∃ j, j < MACNAT_MAX ∧ (∀ k, k < j → ¬ hitsAt t ip mac k) ∧
      (getEntry (macnat_learn t ip mac now) j).used = true ∧
      (getEntry (macnat_learn t ip mac now) j).ip = ip ∧
      (getEntry (macnat_learn t ip mac now) j).real_mac = mac ∧
      (∀ k, k ≠ j → getEntry (macnat_learn t ip mac now) k = getEntry t k) := by
  unfold macnat_learn
  rw [if_neg (by simp [hmc, hip])]
  exact learnGo_shape t ip mac now hlen MACNAT_MAX 0 none 0 rfl
    (fun v h => by cases h) (by decide) (fun k hk => absurd hk (Nat.not_lt_zero k))

/-- Claim C7: for every table and every `(ip, mac)` with `ip ≠ 0` and a
unicast `mac`, calling `macnat_learn` twice in succession (with
arbitrary, possibly different timestamps) leaves the table exactly as
after the first call.  Since the equality holds for every second
timestamp `n2`, the second call in particular does not refresh the
entry's `last_seen` stamp, so eviction order is unchanged. -/
theorem c7_learn_idempotent (t : List MacnatEntry) (ip : Nat) (mac : List Nat)
    (n1 n2 : Int) (hlen : t.length = MACNAT_MAX)
    (hmc : mac_is_mcast mac = false) (hip : ip ≠ 0) :
    macnat_learn (macnat_learn t ip mac n1) ip mac n2 = macnat_learn t ip mac n1 := by
  obtain ⟨j, hj, hpre, hu, hui, hum, hoth⟩ := macnat_learn_shape t ip mac n1 hlen hmc hip
  set r := macnat_learn t ip mac n1 with hr
  rw [macnat_learn, if_neg (by simp [hmc, hip])]
  refine learnGo_self r ip mac n2 j hj hu hui hum ?_
  intro k hk hh
  have hek : getEntry r k = getEntry t k := hoth k (by omega)
  refine hpre k hk ?_
  unfold hitsAt at hh ⊢
  rwa [hek] at hh

/-- Claim C7 witness: a concrete run of the double-learn law. -/
theorem c7_learn_idempotent_witness :
    ((macnat_clear.length = MACNAT_MAX ∧ mac_is_mcast [0,0,0,0,0,1] = false ∧ (5 : Nat) ≠ 0) ∧
      macnat_learn (macnat_learn macnat_clear 5 [0,0,0,0,0,1] 10) 5 [0,0,0,0,0,1] 99 =
        macnat_learn macnat_clear 5 [0,0,0,0,0,1] 10) :=
  ⟨⟨by decide, by decide, by decide⟩,
    c7_learn_idempotent macnat_clear 5 [0,0,0,0,0,1] 10 99 (by decide) (by decide) (by decide)⟩

/-- Claim C4 (amended): when the slot matching the learned `ip` precedes
(in scan order) every slot matching the learned `mac`, `macnat_learn`
updates the IP-matching slot — overwrites its MAC, refreshes its
timestamp — and leaves the MAC-matching slot untouched. -/
theorem c4_ip_match_first_wins (t : List MacnatEntry) (ip : Nat) (mac : List Nat)
    (now : Int) (i j : Nat) (hlen : t.length = MACNAT_MAX)
    (hmc : mac_is_mcast mac = false) (hip0 : ip ≠ 0)
    (hi : i < MACNAT_MAX)
    (hused : (getEntry t i).used = true) (hipm : (getEntry t i).ip = ip)
    (hmacd : (getEntry t i).real_mac ≠ mac)
    (hij : i < j) (hj : j < MACNAT_MAX)
    (hjused : (getEntry t j).used = true) (hjmac : (getEntry t j).real_mac = mac)
    (hjip : (getEntry t j).ip ≠ ip)
    (hfirst : ∀ k, k < i → ¬ hitsAt t ip mac k) :
    macnat_learn t ip mac now =
      t.set i { getEntry t i with real_mac := mac, last_seen := now } ∧
    getEntry (macnat_learn t ip mac now) j = getEntry t j := by
  have hres : macnat_learn t ip mac now = hitResult t ip mac now i := by
    rw [macnat_learn, if_neg (by simp [hmc, hip0])]
    exact learnGo_hit t ip mac now i ⟨hused, Or.inl hipm⟩ MACNAT_MAX 0 none 0
      (Nat.zero_le i) (by omega) (fun k _ hk2 => hfirst k hk2)
  have hres2 : macnat_learn t ip mac now =
      t.set i { getEntry t i with real_mac := mac, last_seen := now } := by
    rw [hres]
    simp only [hitResult, hipm, if_true, hmacd, reduceIte]
  exact ⟨hres2, by rw [hres2]; exact getEntry_set_ne t i j _ (by omega)⟩

/-- A table with the MAC-matching slot at index 0 and the IP-matching
slot at index 1 (insertion order matters for the scan). -/
def c4_table : List MacnatEntry :=
  [⟨5, [0,0,0,0,0,1], 0, true⟩, ⟨7, [0,0,0,0,0,4], 0, true⟩,
   entryDefault, entryDefault, entryDefault, entryDefault, entryDefault, entryDefault]

/-- Claim C4 counterexample: slot 1 matches the learned IP 7 with a
different MAC and slot 0 matches the learned MAC with a different IP,
yet `macnat_learn` updates slot 0 (the MAC match, scanned first) and
leaves slot 1 untouched — the IP-matching entry is not the one updated,
so the update is not independent of array positions. -/
theorem c4_cex :
    (getEntry c4_table 1).used = true ∧ (getEntry c4_table 1).ip = 7 ∧
    (getEntry c4_table 1).real_mac ≠ [0,0,0,0,0,1] ∧
    (getEntry c4_table 0).used = true ∧
    (getEntry c4_table 0).real_mac = [0,0,0,0,0,1] ∧
    (getEntry c4_table 0).ip ≠ 7 ∧
    getEntry (macnat_learn c4_table 7 [0,0,0,0,0,1] 100) 1 = getEntry c4_table 1 ∧
    (getEntry (macnat_learn c4_table 7 [0,0,0,0,0,1] 100) 1).real_mac ≠ [0,0,0,0,0,1] ∧
    getEntry (macnat_learn c4_table 7 [0,0,0,0,0,1] 100) 0 = ⟨7, [0,0,0,0,0,1], 100, true⟩ := by
  decide

/-- The same two entries in the opposite order: the IP match comes first. -/
def c4_table2 : List MacnatEntry :=
  [⟨7, [0,0,0,0,0,4], 0, true⟩, ⟨5, [0,0,0,0,0,1], 0, true⟩,
   entryDefault, entryDefault, entryDefault, entryDefault, entryDefault, entryDefault]

/-- Claim C4 witness: with the IP-matching slot first in scan order, the
amended statement applies and the IP-matching slot is the one updated. -/
theorem c4_ip_match_first_wins_witness :
    ((c4_table2.length = MACNAT_MAX ∧ mac_is_mcast [0,0,0,0,0,1] = false ∧ (7:Nat) ≠ 0) ∧
      macnat_learn c4_table2 7 [0,0,0,0,0,1] 100 =
        c4_table2.set 0
          { getEntry c4_table2 0 with real_mac := [0,0,0,0,0,1], last_seen := 100 } ∧
      getEntry (macnat_learn c4_table2 7 [0,0,0,0,0,1] 100) 1 = getEntry c4_table2 1) :=
  ⟨⟨by decide, by decide, by decide⟩,
    c4_ip_match_first_wins c4_table2 7 [0,0,0,0,0,1] 100 0 1 (by decide) (by decide)
      (by decide) (by decide) (by decide) (by decide) (by decide) (by decide) (by decide)
      (by decide) (by decide) (by decide) (fun k hk => absurd hk (Nat.not_lt_zero k))⟩

/-! ### Downstream client counter (`s_client_count`, wifi_repeater_main.c:670-695)

The WiFi event handler increments `s_client_count` on
`WIFI_EVENT_AP_STACONNECTED` (line 672) and decrements it, guarded
against going below zero, on `WIFI_EVENT_AP_STADISCONNECTED`
(line 693: `if (s_client_count > 0) s_client_count--;`).  Separately,
the HTTP status endpoint (repeater_httpd.c, `/status`) and the periodic
status task (wifi_repeater_main.c:968-975) derive a client count per
query from `esp_wifi_ap_get_sta_list`, the driver's authoritative list,
modelled here as the list of currently associated station MACs. -/

/-- A downstream AP association event, as delivered to
`wifi_event_handler`. -/
inductive ApEvent
  | join (mac : List Nat)
  | leave (mac : List Nat)
deriving DecidableEq, Repr

/-- The effect of one AP event on `s_client_count`
(wifi_repeater_main.c:672 and 693). -/
def client_count_step (c : Int) (e : ApEvent) : Int :=
  match e with
  | .join _ => c + 1
  | .leave _ => if c > 0 then c - 1 else c

/-- `s_client_count` after a sequence of AP events, starting from 0. -/
def client_count_run (es : List ApEvent) : Int := es.foldl client_count_step 0

/-- The driver's station list after one AP event: a join associates the
station, a leave removes it (a leave for a station that is not
associated — a duplicate or spurious leave — removes nothing). -/
def sta_list_step (l : List (List Nat)) (e : ApEvent) : List (List Nat) :=
  match e with
  | .join m => l ++ [m]
  | .leave m => l.erase m

/-- The driver's authoritative station list after a sequence of AP
events, starting from no associated stations. -/
def sta_list_run (es : List ApEvent) : List (List Nat) := es.foldl sta_list_step []

theorem client_count_step_ge (c : Int) (e : ApEvent) (h : 0 ≤ c) :
    0 ≤ client_count_step c e := by
  cases e with
  | join m => simp only [client_count_step]; omega
  | leave m =>
    simp only [client_count_step]
    split <;> omega

theorem client_count_foldl_ge (es : List ApEvent) : ∀ (c : Int), 0 ≤ c →
    0 ≤ es.foldl client_count_step c := by
  induction es with
  | nil => intro c h; exact h
  | cons e rest ih =>
    intro c h
    exact ih (client_count_step c e) (client_count_step_ge c e h)

/-- Claim C9: the stored client counter never becomes negative: after any
sequence of AP client join/leave events — including duplicate or
spurious leaves delivered when the count is already zero — the counter
is at least 0.  This is exactly the guard at wifi_repeater_main.c:693. -/
theorem c9_client_count_nonneg (es : List ApEvent) : 0 ≤ client_count_run es :=
  client_count_foldl_ge es 0 le_rfl

theorem client_count_foldl_le (es : List ApEvent) : ∀ (c : Int) (l : List (List Nat)),
    0 ≤ c → c ≤ l.length →
    es.foldl client_count_step c ≤ (es.foldl sta_list_step l).length := by
  induction es with
  | nil => intro c l _ h2; simpa using h2
  | cons e rest ih =>
    intro c l h1 h2
    refine ih _ _ (client_count_step_ge c e h1) ?_
    cases e with
    | join m => simp [client_count_step, sta_list_step]; omega
    | leave m =>
      simp only [client_count_step, sta_list_step]
      rw [List.length_erase]
      by_cases hm : m ∈ l
      · simp only [hm, if_true]
        have : 1 ≤ l.length := List.length_pos.mpr (List.ne_nil_of_mem hm)
        split <;> omega
      · simp only [hm, if_false]
        split <;> omega

/-- Claim C5 counterexample: after join(A), join(B), leave(A), leave(A)
— a duplicate leave for the same client — the stored counter
`s_client_count` is 0 while the driver's station list still holds one
associated client, so the count maintained by increment/decrement does
not equal the driver-derived count at every query, and the duplicate
leave did bias it. -/
theorem c5_cex :
    client_count_run
        [ApEvent.join [0,0,0,0,0,1], ApEvent.join [0,0,0,0,0,2],
         ApEvent.leave [0,0,0,0,0,1], ApEvent.leave [0,0,0,0,0,1]] = 0 ∧
    (sta_list_run
        [ApEvent.join [0,0,0,0,0,1], ApEvent.join [0,0,0,0,0,2],
         ApEvent.leave [0,0,0,0,0,1], ApEvent.leave [0,0,0,0,0,1]]).length = 1 ∧
    (0 : Int) ≠ 1 := by
  decide

/-- Claim C5 (amended): the core's stored counter `s_client_count` is
maintained by manual increment/decrement (clamped at zero), not derived
per query; it never exceeds the driver's authoritative count, but a
duplicate leave event can push it strictly below the number of
associated clients.  (The HTTP status endpoint separately derives its
reported figure from the driver list on each query.) -/
theorem c5_count_bounds (es : List ApEvent) :
    0 ≤ client_count_run es ∧ client_count_run es ≤ (sta_list_run es).length :=
  ⟨client_count_foldl_ge es 0 le_rfl, client_count_foldl_le es 0 [] le_rfl (by simp)⟩

/-! ### Upstream frame rewriter (`macnat_rewrite_upstream`, wifi_repeater_main.c:318-367) -/

/-- The guard in `on_ap_rx` (wifi_repeater_main.c:180-182) deciding
whether a received frame is subjected to `macnat_rewrite_upstream`:
more than one downstream client, unicast source MAC, and a source MAC
different from the primary (cloned) client's. -/
def on_ap_rx_rewrites_upstream (client_count : Int) (frame : List Nat)
    (client_mac : List Nat) : Bool :=
  (1 < client_count) && (byteAt frame 6 &&& 0x01 == 0) && (macAt frame 6 != client_mac)

/-- `macnat_rewrite_upstream(frame, len)` (wifi_repeater_main.c:318-367):
learn the sender, fix up DHCP client→server messages (broadcast flag,
zeroed UDP checksum), rewrite the ARP sender hardware address, and
finally overwrite the Ethernet source MAC with the cloned client MAC.
Returns the rewritten frame and the updated MAC-NAT table. -/
def macnat_rewrite_upstream (client_mac : List Nat) (t : List MacnatEntry)
    (frame : List Nat) (now : Int) : List Nat × List MacnatEntry :=
  let len := frame.length
  let ethertype := byteAt frame 12 <<< 8 ||| byteAt frame 13
  if ethertype = 0x0800 ∧ 34 ≤ len then
    let src_ip := read_be32 frame 26
    let t1 := macnat_learn t src_ip (macAt frame 6) now
    let frame1 :=
      if byteAt frame 23 = 17 then
        let ihl := (byteAt frame 14 &&& 0x0F) * 4
        if 14 + ihl + 8 ≤ len ∧
           byteAt frame (14+ihl) = 0 ∧ byteAt frame (14+ihl+1) = 68 ∧
           byteAt frame (14+ihl+2) = 0 ∧ byteAt frame (14+ihl+3) = 67 then
          if 14 + ihl + 8 + 44 ≤ len then
            let f2 := frame.set (14+ihl+8+10) (byteAt frame (14+ihl+8+10) ||| 0x80)
            (f2.set (14+ihl+6) 0).set (14+ihl+7) 0
          else frame
        else frame
      else frame
    (memcpyAt frame1 6 client_mac, t1)
  else if ethertype = 0x0806 ∧ 42 ≤ len then
    let sender_ip := read_be32 frame 28
    let t1 := macnat_learn t sender_ip (macAt frame 6) now
    (memcpyAt (memcpyAt frame 22 client_mac) 6 client_mac, t1)
  else
    (memcpyAt frame 6 client_mac, t)

theorem byteAt_memcpyAt_of_ge (src : List Nat) : ∀ (f : List Nat) (i j : Nat),
    i + src.length ≤ j → byteAt (memcpyAt f i src) j = byteAt f j := by
  induction src with
  | nil => intro f i j _; rfl
  | cons b rest ih =>
    intro f i j hj
    rw [memcpyAt, ih (f.set i b) (i+1) j (by simpa [Nat.add_comm, Nat.add_left_comm] using hj),
      byteAt_set_ne f i j b (by simp at hj; omega)]

theorem byteAt_memcpyAt_in (src : List Nat) : ∀ (f : List Nat) (i j : Nat),
    i ≤ j → j < i + src.length → i + src.length ≤ f.length →
    byteAt (memcpyAt f i src) j = src.getD (j - i) 0 := by
  induction src with
  | nil => intro f i j h1 h2 _; simp at h2; omega
  | cons b rest ih =>
    intro f i j h1 h2 h3
    rw [memcpyAt]
    rcases Nat.eq_or_lt_of_le h1 with heq | hlt
    · subst heq
      rw [byteAt_memcpyAt_of_lt rest (f.set i b) (i+1) i (by omega),
        byteAt_set_self f i b (by simp at h3; omega)]
      simp
    · rw [ih (f.set i b) (i+1) j hlt (by simp at h2 ⊢; omega) (by simp at h3 ⊢; omega)]
      have hji : j - i = (j - (i+1)) + 1 := by omega
      rw [hji]
      simp

theorem macAt_memcpyAt (f : List Nat) (i : Nat) (m : List Nat)
    (hm : m.length = 6) (hf : i + 6 ≤ f.length) :
    macAt (memcpyAt f i m) i = m := by
  match m, hm with
  | [a, b, c, d, e, g], _ =>
    rw [macAt,
      byteAt_memcpyAt_in _ f i i le_rfl
        (by simp only [List.length_cons, List.length_nil]; omega)
        (by simp only [List.length_cons, List.length_nil]; omega),
      byteAt_memcpyAt_in _ f i (i+1) (by omega)
        (by simp only [List.length_cons, List.length_nil]; omega)
        (by simp only [List.length_cons, List.length_nil]; omega),
      byteAt_memcpyAt_in _ f i (i+2) (by omega)
        (by simp only [List.length_cons, List.length_nil]; omega)
        (by simp only [List.length_cons, List.length_nil]; omega),
      byteAt_memcpyAt_in _ f i (i+3) (by omega)
        (by simp only [List.length_cons, List.length_nil]; omega)
        (by simp only [List.length_cons, List.length_nil]; omega),
      byteAt_memcpyAt_in _ f i (i+4) (by omega)
        (by simp only [List.length_cons, List.length_nil]; omega)
        (by simp only [List.length_cons, List.length_nil]; omega),
      byteAt_memcpyAt_in _ f i (i+5) (by omega)
        (by simp only [List.length_cons, List.length_nil]; omega)
        (by simp only [List.length_cons, List.length_nil]; omega)]
    have e1 : i + 1 - i = 1 := by omega
    have e2 : i + 2 - i = 2 := by omega
    have e3 : i + 3 - i = 3 := by omega
    have e4 : i + 4 - i = 4 := by omega
    have e5 : i + 5 - i = 5 := by omega
    rw [Nat.sub_self, e1, e2, e3, e4, e5]
    rfl

/-- Claim C6: a frame from a non-primary client that is an IPv4 UDP
datagram from port 68 to port 67 with at least 44 bytes of DHCP payload
and DHCP flags 0x0000 is rewritten by `macnat_rewrite_upstream` so that
the DHCP flags field (DHCP offset 10) has its high bit set — flags
become 0x8000 — the UDP checksum is zeroed, and the Ethernet source MAC
becomes the cloned client MAC. -/
theorem c6_dhcp_broadcast_fixup (client_count : Int) (client_mac : List Nat)
    (t : List MacnatEntry) (frame : List Nat) (now : Int) (ihl : Nat)
    (hgate : on_ap_rx_rewrites_upstream client_count frame client_mac = true)
    (hcmac : client_mac.length = 6)
    (h12 : byteAt frame 12 = 0x08) (h13 : byteAt frame 13 = 0x00)
    (hproto : byteAt frame 23 = 17)
    (hihl : ihl = (byteAt frame 14 &&& 0x0F) * 4)
    (hp0 : byteAt frame (14+ihl) = 0) (hp1 : byteAt frame (14+ihl+1) = 68)
    (hp2 : byteAt frame (14+ihl+2) = 0) (hp3 : byteAt frame (14+ihl+3) = 67)
    (hlen : 14 + ihl + 8 + 44 ≤ frame.length)
    (hfl0 : byteAt frame (14+ihl+8+10) = 0) (hfl1 : byteAt frame (14+ihl+8+11) = 0) :
    read_be16 (macnat_rewrite_upstream client_mac t frame now).1 (14+ihl+8+10) = 0x8000 ∧
    byteAt (macnat_rewrite_upstream client_mac t frame now).1 (14+ihl+6) = 0 ∧
    byteAt (macnat_rewrite_upstream client_mac t frame now).1 (14+ihl+7) = 0 ∧
    macAt (macnat_rewrite_upstream client_mac t frame now).1 6 = client_mac := by
  have hihl4 : ihl ≤ 60 := by
    have h15 : byteAt frame 14 &&& 0x0F ≤ 15 := Nat.and_le_right
    omega
  have hres : (macnat_rewrite_upstream client_mac t frame now).1 =
      memcpyAt (((frame.set (14+ihl+8+10) (byteAt frame (14+ihl+8+10) ||| 0x80)).set
        (14+ihl+6) 0).set (14+ihl+7) 0) 6 client_mac := by
    simp only [macnat_rewrite_upstream]
    rw [if_pos (show (byteAt frame 12 <<< 8 ||| byteAt frame 13) = 0x0800 ∧
        34 ≤ frame.length from ⟨by rw [h12, h13]; decide, by omega⟩)]
    simp only [hproto, ← hihl, reduceIte]
    rw [if_pos ⟨by omega, hp0, hp1, hp2, hp3⟩, if_pos hlen]
  have hlenset : (((frame.set (14+ihl+8+10) (byteAt frame (14+ihl+8+10) ||| 0x80)).set
      (14+ihl+6) 0).set (14+ihl+7) 0).length = frame.length := by simp
  refine ⟨?_, ?_, ?_, ?_⟩
  · rw [read_be16, hres,
      byteAt_memcpyAt_of_ge _ _ _ _ (by omega),
      byteAt_memcpyAt_of_ge _ _ _ _ (by omega),
      byteAt_set_ne _ _ _ _ (by omega), byteAt_set_ne _ _ _ _ (by omega),
      byteAt_set_self _ _ _ (by omega),
      byteAt_set_ne _ _ _ _ (by omega), byteAt_set_ne _ _ _ _ (by omega),
      byteAt_set_ne _ _ _ _ (by omega), hfl0, hfl1]
    decide
  · rw [hres, byteAt_memcpyAt_of_ge _ _ _ _ (by omega),
      byteAt_set_ne _ _ _ _ (by omega),
      byteAt_set_self _ _ _ (by simp; omega)]
  · rw [hres, byteAt_memcpyAt_of_ge _ _ _ _ (by omega),
      byteAt_set_self _ _ _ (by simp; omega)]
  · rw [hres]
    exact macAt_memcpyAt _ 6 client_mac hcmac (by omega)

/-- A concrete 86-byte DHCP Request: Ethernet (src `00:…:02`),
IPv4 (ihl 5, UDP), UDP 68→67 with a nonzero checksum, and a 44-byte
DHCP header with flags 0x0000. -/
def c6_frame : List Nat :=
  [255,255,255,255,255,255, 0,0,0,0,0,2, 8,0,
   69,0,0,110, 0,0,0,0, 64,17, 0,0, 10,0,0,5, 255,255,255,255,
   0,68, 0,67, 0,76, 171,205,
   1,1,6,0, 0,0,0,1, 0,0, 0,0,
   0,0,0,0, 0,0,0,0, 0,0,0,0, 0,0,0,0,
   0,0,0,0,0,2, 0,0,0,0,0,0,0,0,0,0]

/-- Claim C6 witness: the broadcast-flag fixup on the concrete frame,
with cloned client MAC `00:…:09` and two downstream clients. -/
theorem c6_dhcp_broadcast_fixup_witness :
    (on_ap_rx_rewrites_upstream 2 c6_frame [0,0,0,0,0,9] = true ∧
     byteAt c6_frame 12 = 0x08 ∧ byteAt c6_frame 13 = 0x00 ∧
     byteAt c6_frame 23 = 17 ∧
     (20 : Nat) = (byteAt c6_frame 14 &&& 0x0F) * 4 ∧
     byteAt c6_frame (14+20) = 0 ∧ byteAt c6_frame (14+20+1) = 68 ∧
     byteAt c6_frame (14+20+2) = 0 ∧ byteAt c6_frame (14+20+3) = 67 ∧
     14 + 20 + 8 + 44 ≤ c6_frame.length ∧
     byteAt c6_frame (14+20+8+10) = 0 ∧ byteAt c6_frame (14+20+8+11) = 0) ∧
    read_be16 (macnat_rewrite_upstream [0,0,0,0,0,9] [] c6_frame 0).1 (14+20+8+10) = 0x8000 ∧
    byteAt (macnat_rewrite_upstream [0,0,0,0,0,9] [] c6_frame 0).1 (14+20+6) = 0 ∧
    byteAt (macnat_rewrite_upstream [0,0,0,0,0,9] [] c6_frame 0).1 (14+20+7) = 0 ∧
    macAt (macnat_rewrite_upstream [0,0,0,0,0,9] [] c6_frame 0).1 6 = [0,0,0,0,0,9] :=
  ⟨⟨by decide, by decide, by decide, by decide, by decide, by decide, by decide, by decide,
    by decide, by decide, by decide, by decide⟩,
   c6_dhcp_broadcast_fixup 2 [0,0,0,0,0,9] [] c6_frame 0 20 (by decide) (by decide)
     (by decide) (by decide) (by decide) (by decide) (by decide) (by decide) (by decide)
     (by decide) (by decide) (by decide) (by decide)⟩

/-! ### DHCP-ACK sniffer (`sniff_dhcp_ack_and_set_ap_ip`, wifi_repeater_main.c:743-845)

`uint32_t` quantities (`candidate`, `h_client`, …) live modulo
`U32 = 2^32`; the reads from the frame are already in host order (see
the file comment), so `ntohl`/`htonl` are identities of the model. -/

def U32 : Nat := 4294967296

/-- `uint32_t` decrement: `x - 1` with wrap-around. -/
def dec32 (x : Nat) : Nat := (x + (U32 - 1)) % U32

/-- The option walk of the sniffer (wifi_repeater_main.c:769-789):
starting at option offset `opt`, scan at most `opt_max` bytes of
options, collecting the DHCP message type 53 (ACK flag), option 1
(subnet mask) and option 3 (router).  The extra fuel argument counts
loop iterations; every iteration advances `i` by at least one, so
`opt_max` iterations are enough and the fuel-exhausted branch coincides
with the loop exit `i ≥ opt_max`. -/
def parse_opts (data : List Nat) (opt : Nat) (opt_max : Nat) :
    Nat → Nat → Bool → Nat → Nat → Bool × Nat × Nat
  | _, 0, is_ack, mask, gw => (is_ack, mask, gw)
  | i, fuel+1, is_ack, mask, gw =>
    if i < opt_max then
      let ty := byteAt data (opt + i)
      if ty = 255 then (is_ack, mask, gw)
      else if ty = 0 then parse_opts data opt opt_max (i+1) fuel is_ack mask gw
      else if opt_max ≤ i + 1 then (is_ack, mask, gw)
      else
        let olen := byteAt data (opt + i + 1)
        if opt_max < i + 2 + olen then (is_ack, mask, gw)
        else
          let is_ack2 := if ty = 53 ∧ olen = 1 ∧ byteAt data (opt + i + 2) = 5 then true else is_ack
          let mask2 := if ty = 1 ∧ olen = 4 then read_be32 data (opt + i + 2) else mask
          let gw2 := if ty = 3 ∧ 4 ≤ olen then read_be32 data (opt + i + 2) else gw
          parse_opts data opt opt_max (i + 2 + olen) fuel is_ack2 mask2 gw2
    else (is_ack, mask, gw)

/-- The candidate search loop (wifi_repeater_main.c:820-826): up to ten
tries, keep the candidate if it is a host address distinct from the
client and the gateway, else decrement. -/
def sel_try (network bcast h_client h_gw : Nat) : Nat → Nat → Nat
  | 0, candidate => candidate
  | tries+1, candidate =>
    if network < candidate ∧ candidate < bcast ∧ candidate ≠ h_client ∧ candidate ≠ h_gw then
      candidate
    else sel_try network bcast h_client h_gw tries (dec32 candidate)

/-- AP management-address selection (wifi_repeater_main.c:811-831):
highest host address (`bcast - 1`) with up to ten decrements, then the
`client - 1` / `client + 1` fallback. -/
def select_ap_ip (h_client h_mask h_gw : Nat) : Nat :=
  let network := h_client &&& h_mask
  let bcast := network ||| (0xFFFFFFFF ^^^ h_mask)
  let c := sel_try network bcast h_client h_gw 10 (dec32 bcast)
  if c ≤ network ∨ bcast ≤ c then
    let c2 := dec32 h_client
    if c2 ≤ network then (h_client + 1) % U32 else c2
  else c

/-- AP interface configuration, as handed to `esp_netif_set_ip_info`. -/
structure ApIpInfo where
  ip : Nat
  netmask : Nat
  gw : Nat
deriving DecidableEq, Repr

/-- The state the sniffer reads and writes: the MAC-NAT table, the
`s_ap_ip_from_sniff` latch, the AP interface address, and whether the
AP's DHCP server is running. -/
structure SniffState where
  macnat : List MacnatEntry
  ap_ip_from_sniff : Bool
  ap_ip : ApIpInfo
  ap_dhcps_running : Bool
deriving DecidableEq, Repr

/-- `ip_ihl` as computed by the sniffer (wifi_repeater_main.c:749). -/
def sniff_ip_ihl (data : List Nat) : Nat := (byteAt data 14 &&& 0x0F) * 4

/-- Offset of the DHCP message inside the frame
(wifi_repeater_main.c:750-753). -/
def sniff_dhcp_off (data : List Nat) : Nat := 14 + sniff_ip_ihl data + 8

/-- `dhcp_len` (wifi_repeater_main.c:754), a C `int`. -/
def sniff_dhcp_len (data : List Nat) : Int :=
  (data.length : Int) - 14 - sniff_ip_ihl data - 8

/-- The `(is_ack, subnet_mask, gateway)` triple collected by the option
walk of wifi_repeater_main.c:762-789. -/
def sniff_opts (data : List Nat) : Bool × Nat × Nat :=
  parse_opts data (sniff_dhcp_off data + 240) (sniff_dhcp_len data - 240).toNat 0
    (sniff_dhcp_len data - 240).toNat false 0 0

/-- `yiaddr` at DHCP offset 16 (wifi_repeater_main.c:793-795). -/
def sniff_yiaddr (data : List Nat) : Nat := read_be32 data (sniff_dhcp_off data + 16)

/-- `chaddr` at DHCP offset 28 (wifi_repeater_main.c:798-801). -/
def sniff_chaddr (data : List Nat) : List Nat := macAt data (sniff_dhcp_off data + 28)

/-- `sniff_dhcp_ack_and_set_ap_ip(data, len)`
(wifi_repeater_main.c:743-845), with the timestamp used by
`macnat_learn` made explicit. -/
def sniff_dhcp_ack_and_set_ap_ip (st : SniffState) (data : List Nat) (now : Int) :
    SniffState :=
  let dhcp := sniff_dhcp_off data
  let dhcp_len := sniff_dhcp_len data
  if dhcp_len < 240 then st
  else if byteAt data dhcp ≠ 2 then st
  else if ¬ (byteAt data (dhcp+236) = 0x63 ∧ byteAt data (dhcp+237) = 0x82 ∧
             byteAt data (dhcp+238) = 0x53 ∧ byteAt data (dhcp+239) = 0x63) then st
  else
    let res := sniff_opts data
    if ¬ res.1 then st
    else
      let client_ip_n := sniff_yiaddr data
      if client_ip_n = 0 ∨ res.2.1 = 0 then st
      else
        let st1 := if 34 ≤ dhcp_len then
            { st with macnat := macnat_learn st.macnat client_ip_n (sniff_chaddr data) now }
          else st
        if st.ap_ip_from_sniff then st1
        else
          { st1 with
            ap_ip := ⟨select_ap_ip client_ip_n res.2.1 res.2.2, res.2.1, res.2.2⟩,
            ap_dhcps_running := false,
            ap_ip_from_sniff := true }

/-- The caller's inline DHCP pre-check in `on_sta_rx`
(wifi_repeater_main.c:128-134): length at least 286, IPv4 EtherType,
UDP, source port 67, destination port 68. -/
def on_sta_rx_dhcp_precheck (data : List Nat) : Bool :=
  (286 ≤ data.length) &&
  (byteAt data 12 == 0x08) && (byteAt data 13 == 0x00) &&
  (byteAt data 23 == 17) &&
  (14 + (byteAt data 14 &&& 0x0F) * 4 + 8 ≤ data.length) &&
  (byteAt data (14 + (byteAt data 14 &&& 0x0F) * 4) == 0) &&
  (byteAt data (14 + (byteAt data 14 &&& 0x0F) * 4 + 1) == 67) &&
  (byteAt data (14 + (byteAt data 14 &&& 0x0F) * 4 + 2) == 0) &&
  (byteAt data (14 + (byteAt data 14 &&& 0x0F) * 4 + 3) == 68)

/-- Claim C8: once the AP address has been derived from a first ACK
(`s_ap_ip_from_sniff` latched), processing any further valid DHCP ACK
leaves the AP interface address, netmask, gateway, DHCP-server state
and the latch unchanged, while the ACK's `(yiaddr, chaddr)` pair is
still fed to the MAC-NAT table. -/
theorem c8_second_ack_latched (st : SniffState) (data : List Nat) (now : Int)
    (hlatch : st.ap_ip_from_sniff = true)
    (hlen : 240 ≤ sniff_dhcp_len data)
    (hop : byteAt data (sniff_dhcp_off data) = 2)
    (hck : byteAt data (sniff_dhcp_off data + 236) = 0x63 ∧
           byteAt data (sniff_dhcp_off data + 237) = 0x82 ∧
           byteAt data (sniff_dhcp_off data + 238) = 0x53 ∧
           byteAt data (sniff_dhcp_off data + 239) = 0x63)
    (hack : (sniff_opts data).1 = true)
    (hyi : sniff_yiaddr data ≠ 0)
    (hmask : (sniff_opts data).2.1 ≠ 0) :
    sniff_dhcp_ack_and_set_ap_ip st data now =
      { st with macnat := macnat_learn st.macnat (sniff_yiaddr data) (sniff_chaddr data) now } := by
  unfold sniff_dhcp_ack_and_set_ap_ip
  rw [if_neg (by omega), if_neg (not_not_intro hop), if_neg (not_not_intro hck),
    if_neg (not_not_intro hack), if_neg (by push_neg; exact ⟨hyi, hmask⟩),
    if_pos (by omega : (34:Int) ≤ sniff_dhcp_len data), if_pos hlatch]

/-- Claim C10: a frame that passes `on_sta_rx`'s DHCP pre-check and is a
BOOTREPLY ACK with a valid magic cookie, but whose `yiaddr` is zero or
whose subnet-mask option is absent or zero, changes nothing: the
MAC-NAT table is not updated, the AP configuration is untouched, and
the latch stays as it was (in particular clear). -/
theorem c10_ack_without_lease_changes_nothing (st : SniffState) (data : List Nat) (now : Int)
    (hpre : on_sta_rx_dhcp_precheck data = true)
    (hlatch : st.ap_ip_from_sniff = false)
    (hlen : 240 ≤ sniff_dhcp_len data)
    (hop : byteAt data (sniff_dhcp_off data) = 2)
    (hck : byteAt data (sniff_dhcp_off data + 236) = 0x63 ∧
           byteAt data (sniff_dhcp_off data + 237) = 0x82 ∧
           byteAt data (sniff_dhcp_off data + 238) = 0x53 ∧
           byteAt data (sniff_dhcp_off data + 239) = 0x63)
    (hack : (sniff_opts data).1 = true)
    (hbad : sniff_yiaddr data = 0 ∨ (sniff_opts data).2.1 = 0) :
    sniff_dhcp_ack_and_set_ap_ip st data now = st := by
  unfold sniff_dhcp_ack_and_set_ap_ip
  rw [if_neg (by omega), if_neg (not_not_intro hop), if_neg (not_not_intro hck),
    if_neg (not_not_intro hack), if_pos hbad]

set_option maxRecDepth 16384

/-- A concrete 298-byte DHCP ACK frame: Ethernet + IPv4 (ihl 5, UDP) +
UDP 67→68 + 236-byte DHCP header with the given `yiaddr` and chaddr
`cc:cc:cc:cc:cc:03` + magic cookie + the given options. -/
def mk_ack_frame (yiaddr : List Nat) (opts : List Nat) : List Nat :=
  [255,255,255,255,255,255, 0,0,0,0,0,2, 8,0,
   69,0,1,16, 0,0,0,0, 64,17, 0,0, 192,168,8,1, 255,255,255,255,
   0,67, 0,68, 1,8, 0,0,
   2,1,6,0, 0,0,0,1, 0,0, 0,0,
   0,0,0,0] ++ yiaddr ++ [0,0,0,0, 0,0,0,0,
   204,204,204,204,204,3] ++ List.replicate 10 0 ++
  List.replicate 64 0 ++ List.replicate 128 0 ++
  [0x63,0x82,0x53,0x63] ++ opts

/-- ACK options: message type 5 (ACK), subnet mask 255.255.255.0,
router 192.168.8.1, end. -/
def ack_opts : List Nat := [53,1,5, 1,4,255,255,255,0, 3,4,192,168,8,1, 255]

/-- Claim C8 witness: a second valid ACK processed with the latch set
leaves the AP configuration alone and only learns `(yiaddr, chaddr)`. -/
theorem c8_second_ack_latched_witness :
    ((⟨[], true, ⟨3232237310, 4294967040, 3232237057⟩, false⟩ : SniffState).ap_ip_from_sniff = true ∧
     240 ≤ sniff_dhcp_len (mk_ack_frame [192,168,8,110] ack_opts) ∧
     byteAt (mk_ack_frame [192,168,8,110] ack_opts)
       (sniff_dhcp_off (mk_ack_frame [192,168,8,110] ack_opts)) = 2 ∧
     (sniff_opts (mk_ack_frame [192,168,8,110] ack_opts)).1 = true ∧
     sniff_yiaddr (mk_ack_frame [192,168,8,110] ack_opts) ≠ 0 ∧
     (sniff_opts (mk_ack_frame [192,168,8,110] ack_opts)).2.1 ≠ 0) ∧
    sniff_dhcp_ack_and_set_ap_ip ⟨[], true, ⟨3232237310, 4294967040, 3232237057⟩, false⟩
        (mk_ack_frame [192,168,8,110] ack_opts) 7 =
      ⟨macnat_learn [] (sniff_yiaddr (mk_ack_frame [192,168,8,110] ack_opts))
          (sniff_chaddr (mk_ack_frame [192,168,8,110] ack_opts)) 7,
        true, ⟨3232237310, 4294967040, 3232237057⟩, false⟩ :=
  ⟨⟨rfl, by decide, by decide, by decide, by decide, by decide⟩,
   c8_second_ack_latched ⟨[], true, ⟨3232237310, 4294967040, 3232237057⟩, false⟩
     (mk_ack_frame [192,168,8,110] ack_opts) 7 rfl (by decide) (by decide)
     ⟨by decide, by decide, by decide, by decide⟩ (by decide) (by decide) (by decide)⟩

/-- Claim C10 witness: a valid BOOTREPLY ACK through the caller's
pre-check whose `yiaddr` is 0 leaves the sniffer state untouched. -/
theorem c10_ack_without_lease_witness :
    (on_sta_rx_dhcp_precheck (mk_ack_frame [0,0,0,0] ack_opts) = true ∧
     (⟨[], false, ⟨0, 0, 0⟩, true⟩ : SniffState).ap_ip_from_sniff = false ∧
     240 ≤ sniff_dhcp_len (mk_ack_frame [0,0,0,0] ack_opts) ∧
     byteAt (mk_ack_frame [0,0,0,0] ack_opts)
       (sniff_dhcp_off (mk_ack_frame [0,0,0,0] ack_opts)) = 2 ∧
     (sniff_opts (mk_ack_frame [0,0,0,0] ack_opts)).1 = true ∧
     sniff_yiaddr (mk_ack_frame [0,0,0,0] ack_opts) = 0) ∧
    sniff_dhcp_ack_and_set_ap_ip ⟨[], false, ⟨0, 0, 0⟩, true⟩
        (mk_ack_frame [0,0,0,0] ack_opts) 7 = ⟨[], false, ⟨0, 0, 0⟩, true⟩ :=
  ⟨⟨by decide, rfl, by decide, by decide, by decide, by decide⟩,
   c10_ack_without_lease_changes_nothing ⟨[], false, ⟨0, 0, 0⟩, true⟩
     (mk_ack_frame [0,0,0,0] ack_opts) 7 (by decide) rfl (by decide) (by decide)
     ⟨by decide, by decide, by decide, by decide⟩ (by decide) (Or.inl (by decide))⟩

theorem and_mask_fffffffc (x : Nat) (hx : x < U32) : x &&& 0xFFFFFFFC = x - x % 4 := by
  have h4 : x - x % 4 = (x >>> 2) <<< 2 := by
    rw [Nat.shiftRight_eq_div_pow, Nat.shiftLeft_eq]
    have := Nat.div_add_mod x 4
    norm_num
    omega
  rw [h4]
  apply Nat.eq_of_testBit_eq
  intro i
  rw [Nat.testBit_land, Nat.testBit_shiftLeft, Nat.testBit_shiftRight]
  have hmask : (0xFFFFFFFC : Nat) = (2^30 - 1) <<< 2 := by decide
  rw [hmask, Nat.testBit_shiftLeft, Nat.testBit_two_pow_sub_one]
  rcases Nat.lt_or_ge i 2 with h2 | h2
  · simp [show ¬ (2 ≤ i) from by omega]
  · rcases Nat.lt_or_ge i 32 with h32 | h32
    · simp [h2, show 2 + (i - 2) = i from by omega, show i - 2 < 30 from by omega]
    · have hfalse : x.testBit i = false := by
        refine Nat.testBit_lt_two_pow (lt_of_lt_of_le hx ?_)
        calc U32 = 2 ^ 32 := by norm_num [U32]
          _ ≤ 2 ^ i := Nat.pow_le_pow_right (by norm_num) h32
      simp [hfalse, h2, show 2 + (i - 2) = i from by omega]

theorem lor_three (x : Nat) (h : x % 4 = 0) : x ||| 3 = x + 3 := by
  have hx : x = 2 ^ 2 * (x / 4) := by
    have := Nat.div_add_mod x 4
    norm_num
    omega
  rw [hx]
  exact (Nat.mul_add_lt_is_or (by norm_num) (x / 4)).symm

/-- Each run of the candidate loop either stops at a candidate passing
all four tests or decrements all the way: the result is the start minus
the fuel, modulo 2^32. -/
theorem sel_try_cases (network bcast h_client h_gw : Nat) :
    ∀ (fuel cand : Nat), cand < U32 →
      (network < sel_try network bcast h_client h_gw fuel cand ∧
       sel_try network bcast h_client h_gw fuel cand < bcast ∧
       sel_try network bcast h_client h_gw fuel cand ≠ h_client ∧
       sel_try network bcast h_client h_gw fuel cand ≠ h_gw) ∨
      sel_try network bcast h_client h_gw fuel cand = (cand + fuel * (U32 - 1)) % U32 := by
  intro fuel
  induction fuel with
  | zero =>
    intro cand hc
    right
    simp [sel_try, Nat.mod_eq_of_lt hc]
  | succ m ih =>
    intro cand hc
    rw [sel_try]
    by_cases hcond : network < cand ∧ cand < bcast ∧ cand ≠ h_client ∧ cand ≠ h_gw
    · rw [if_pos hcond]
      exact Or.inl hcond
    · rw [if_neg hcond]
      rcases ih (dec32 cand) (Nat.mod_lt _ (by norm_num [U32])) with h | h
      · exact Or.inl h
      · right
        rw [h, dec32, Nat.mod_add_mod]
        congr 1
        ring

/-- Claim C3 (amended): in a /30 subnet (mask 255.255.255.252) the
selection always returns the host address other than the client: for a
client at `network + 2` it returns `client - 1`, for a client at
`network + 1` it returns `client + 1`.  The result therefore never
equals the client IP, but it equals the gateway whenever the gateway
occupies the other host address — the /30 no-collision guarantee of the
claim does not hold. -/
theorem c3_slash30_other_host (h_client h_gw : Nat) (hc : h_client < U32) :
    (h_client % 4 = 2 → select_ap_ip h_client 0xFFFFFFFC h_gw = h_client - 1) ∧
    (h_client % 4 = 1 → select_ap_ip h_client 0xFFFFFFFC h_gw = h_client + 1) := by
  have hxor : (0xFFFFFFFF : Nat) ^^^ 0xFFFFFFFC = 3 := by decide
  have hc32 : h_client < 4294967296 := by simpa only [U32] using hc
  constructor
  · intro hm
    have hx2 : 2 ≤ h_client := by omega
    have hnet : h_client &&& 0xFFFFFFFC = h_client - 2 := by
      rw [and_mask_fffffffc h_client hc, hm]
    have hbc : (h_client - 2) ||| 3 = h_client + 1 := by
      rw [lor_three _ (by omega)]
      omega
    simp only [select_ap_ip, hxor, hnet, hbc]
    have hstart : dec32 (h_client + 1) = h_client := by
      simp only [dec32, U32]
      omega
    have hd1 : dec32 h_client = h_client - 1 := by
      simp only [dec32, U32]
      omega
    have hstep : sel_try (h_client - 2) (h_client + 1) h_client h_gw 10 h_client =
        sel_try (h_client - 2) (h_client + 1) h_client h_gw 9 (h_client - 1) := by
      rw [sel_try, if_neg (fun h => h.2.2.1 rfl), hd1]
    rw [hstart, hstep]
    rcases sel_try_cases (h_client - 2) (h_client + 1) h_client h_gw 9 (h_client - 1)
        (by simp only [U32]; omega) with hgood | hrest
    · rw [if_neg (by omega)]
      omega
    · rw [hrest]
      have hle : (h_client - 1 + 9 * (U32 - 1)) % U32 ≤ h_client - 2 ∨
          h_client + 1 ≤ (h_client - 1 + 9 * (U32 - 1)) % U32 := by
        simp only [U32]
        omega
      rw [if_pos hle, hd1, if_neg (by omega)]
  · intro hm
    have hx1 : 1 ≤ h_client := by omega
    have hxu : h_client + 2 < 4294967296 := by omega
    have hnet : h_client &&& 0xFFFFFFFC = h_client - 1 := by
      rw [and_mask_fffffffc h_client hc, hm]
    have hbc : (h_client - 1) ||| 3 = h_client + 2 := by
      rw [lor_three _ (by omega)]
      omega
    simp only [select_ap_ip, hxor, hnet, hbc]
    have hstart : dec32 (h_client + 2) = h_client + 1 := by
      simp only [dec32, U32]
      omega
    have hd1 : dec32 h_client = h_client - 1 := by
      simp only [dec32, U32]
      omega
    rw [hstart]
    rcases sel_try_cases (h_client - 1) (h_client + 2) h_client h_gw 10 (h_client + 1)
        (by simp only [U32]; omega) with hgood | hrest
    · rw [if_neg (by omega)]
      omega
    · rw [hrest]
      have hle : (h_client + 1 + 10 * (U32 - 1)) % U32 ≤ h_client - 1 ∨
          h_client + 2 ≤ (h_client + 1 + 10 * (U32 - 1)) % U32 := by
        simp only [U32]
        omega
      rw [if_pos hle, hd1, if_pos (by omega)]
      exact Nat.mod_eq_of_lt (by simp only [U32]; omega)

/-- A /30 DHCP ACK: client 10.0.0.2, mask 255.255.255.252,
gateway 10.0.0.1 — the gateway occupies the only other host address. -/
def c3_frame : List Nat :=
  mk_ack_frame [10,0,0,2] [53,1,5, 1,4,255,255,255,252, 3,4,10,0,0,1, 255]

/-- Claim C3 counterexample: on a /30 ACK whose client and gateway fill
both host addresses, the sniffer derives an AP address equal to the
gateway (10.0.0.1), violating the claimed no-collision property. -/
theorem c3_cex :
    (sniff_opts c3_frame).2.1 = 4294967292 ∧
    (sniff_opts c3_frame).2.2 = 167772161 ∧
    sniff_yiaddr c3_frame = 167772162 ∧
    (sniff_dhcp_ack_and_set_ap_ip ⟨[], false, ⟨0, 0, 0⟩, true⟩ c3_frame 7).ap_ip.ip =
      167772161 := by
  decide

/-- Claim C3 witness: the amended /30 law at client 10.0.0.2 — the
selected address is the other host address 10.0.0.1 (= client − 1). -/
theorem c3_slash30_other_host_witness :
    ((167772162 : Nat) < U32 ∧ (167772162 : Nat) % 4 = 2) ∧
    select_ap_ip 167772162 0xFFFFFFFC 167772161 = 167772161 :=
  ⟨⟨by decide, by decide⟩,
    (c3_slash30_other_host 167772162 167772161 (by decide)).1 (by decide)⟩

/-! ### Bridging state machine (wifi_repeater_main.c:411-733)

Small-step model of the global flags, the `mac_change_task` worker
(lines 411-590) and the WiFi event handler (lines 614-733).

Modelling assumptions, matching the FreeRTOS execution the code relies
on:

* Each WiFi event handler invocation runs on the (higher-priority)
  event task and is one atomic transition.
* The worker runs one atomic segment between consecutive blocking
  points (`xEventGroupWaitBits` / `vTaskDelay`); `worker` names the
  next segment to run, `wNone` meaning no worker holds the mutex.
* `esp_wifi_connect()` makes a CONNECTED event deliverable
  (`conn_pending`); completion is never guaranteed (the upstream AP may
  be gone), which the 15-second timeout branches handle.
  `esp_wifi_disconnect()` aborts any pending connect and posts a
  DISCONNECTED event (`disc_pending`).  A posted disconnect event is
  dispatched while the worker is blocked: every worker segment that
  follows a disconnect + wait/delay requires `disc_pending = false`,
  which is exactly what the code's 5-second disconnect waits and
  100-200 ms settle delays are for.
* Spontaneous disconnects (the upstream kicks the STA) may fire
  whenever the STA is connected.
* Worker spawns (`xTaskCreate` from the AP join/leave handler) happen
  when no worker holds the mutex; a spawn attempted while a worker is
  running is dropped by the 5-second mutex timeout (lines 416-421),
  the same observable outcome. -/

inductive RState
  | idle
  | mac_changing
  | bridging
  | mac_restoring
deriving DecidableEq, Repr

/-- The STA interface hardware address: factory original or the cloned
client MAC. -/
inductive HwMac
  | original
  | cloned
deriving DecidableEq, Repr

/-- Program counter of the `mac_change_task` worker: the next atomic
segment to run.  `c0`-`c3` are the clone path (lines 423-521, `c4t`,
`c5t` its reconnect-timeout fallback), `r0`-`r3` the restore path
(lines 523-584). -/
inductive WorkerPC
  | wNone
  | c0
  | c1
  | c2
  | c3
  | c4t
  | c5t
  | r0
  | r1
  | r2
  | r3
deriving DecidableEq, Repr

/-- The shared state of the bridging machine: `s_state`,
`s_sta_connected`, `s_forwarding_active`, `s_mac_cloned`,
`s_suppress_auto_reconnect`, the driver-side pending connect and
disconnect, the `STA_CONNECTED_BIT` of the event group, the STA
hardware MAC, and the worker position. -/
structure Sys where
  rstate : RState
  sta_connected : Bool
  forwarding_active : Bool
  mac_cloned : Bool
  suppress : Bool
  conn_pending : Bool
  disc_pending : Bool
  cbit : Bool
  sta_mac : HwMac
  worker : WorkerPC
deriving DecidableEq, Repr

/-- Startup state: IDLE, original MAC, and the `WIFI_EVENT_STA_START`
auto-connect issued (lines 619-626). -/
def initSys : Sys :=
  ⟨RState.idle, false, false, false, false, true, false, false, HwMac.original, WorkerPC.wNone⟩

/-- One atomic transition of the bridging machine. -/
inductive Step : Sys → Sys → Prop
  /-- `WIFI_EVENT_STA_CONNECTED` (lines 628-650): set the connected
  flag and bit, and start forwarding iff `s_mac_cloned`. -/
  | deliver_connected (s : Sys) (h : s.conn_pending = true) :
      Step s { s with
        conn_pending := false
        sta_connected := true
        cbit := true
        forwarding_active := (if s.mac_cloned then true else s.forwarding_active) }
  /-- `WIFI_EVENT_STA_DISCONNECTED` (lines 652-668): clear flags, stop
  forwarding, auto-reconnect unless suppressed. -/
  | deliver_disconnected (s : Sys) (h : s.disc_pending = true ∨ s.sta_connected = true) :
      Step s { s with
        disc_pending := false
        sta_connected := false
        cbit := false
        forwarding_active := false
        conn_pending := (if s.suppress then s.conn_pending else true) }
  /-- `WIFI_EVENT_AP_STACONNECTED` while IDLE and not cloned
  (lines 676-679): spawn the clone worker. -/
  | ap_join_clone (s : Sys) (hw : s.worker = WorkerPC.wNone)
      (hs : s.rstate = RState.idle) (hm : s.mac_cloned = false) :
      Step s { s with worker := WorkerPC.c0 }
  /-- `WIFI_EVENT_AP_STADISCONNECTED` of the primary with no client
  left (lines 698-712): spawn the restore worker. -/
  | ap_leave_restore (s : Sys) (hw : s.worker = WorkerPC.wNone)
      (hm : s.mac_cloned = true) :
      Step s { s with worker := WorkerPC.r0 }
  /-- `WIFI_EVENT_AP_STADISCONNECTED` of the primary with clients left
  (lines 713-725): spawn a re-clone worker. -/
  | ap_leave_reclone (s : Sys) (hw : s.worker = WorkerPC.wNone)
      (hm : s.mac_cloned = true) :
      Step s { s with worker := WorkerPC.c0 }
  /-- Clone lines 423-441: state := MAC_CHANGING, stop forwarding,
  suppress, disconnect; then block on the disconnect wait. -/
  | w_c0 (s : Sys) (hw : s.worker = WorkerPC.c0) :
      Step s { s with
        rstate := RState.mac_changing
        forwarding_active := false
        suppress := true
        disc_pending := true
        conn_pending := false
        worker := WorkerPC.c1 }
  /-- Clone lines 445-476, `esp_wifi_set_mac` succeeds: STA now has the
  client MAC, `s_mac_cloned := true`; then the 200 ms settle delay. -/
  | w_c1_ok (s : Sys) (hw : s.worker = WorkerPC.c1) (hd : s.disc_pending = false) :
      Step s { s with
        sta_mac := HwMac.cloned
        mac_cloned := true
        worker := WorkerPC.c2 }
  /-- Clone lines 458-468, `esp_wifi_set_mac` fails: restore the
  original MAC, clear suppression, plain reconnect, release the mutex
  and exit.  Note: `s_state` is left untouched (it stays
  MAC_CHANGING). -/
  | w_c1_fail (s : Sys) (hw : s.worker = WorkerPC.c1) (hd : s.disc_pending = false) :
      Step s { s with
        sta_mac := HwMac.original
        suppress := false
        conn_pending := true
        worker := WorkerPC.wNone }
  /-- Clone lines 480-492: pin the BSSID, clear suppression, reconnect;
  then block on the CONNECTED wait. -/
  | w_c2 (s : Sys) (hw : s.worker = WorkerPC.c2) (hd : s.disc_pending = false) :
      Step s { s with
        suppress := false
        conn_pending := true
        worker := WorkerPC.c3 }
  /-- Clone lines 497-500, CONNECTED bit seen: state := BRIDGING,
  release the mutex, exit. -/
  | w_c3_ok (s : Sys) (hw : s.worker = WorkerPC.c3) (hc : s.cbit = true) :
      Step s { s with
        rstate := RState.bridging
        worker := WorkerPC.wNone }
  /-- Clone lines 502-505, reconnect timeout: suppress, disconnect;
  then the 200 ms delay. -/
  | w_c3_timeout (s : Sys) (hw : s.worker = WorkerPC.c3) :
      Step s { s with
        suppress := true
        disc_pending := true
        conn_pending := false
        worker := WorkerPC.c4t }
  /-- Clone timeout lines 506-517: restore the original MAC, clear
  `s_mac_cloned`, restart the DHCP client, unpin; then the delay. -/
  | w_c4t (s : Sys) (hw : s.worker = WorkerPC.c4t) (hd : s.disc_pending = false) :
      Step s { s with
        sta_mac := HwMac.original
        mac_cloned := false
        worker := WorkerPC.c5t }
  /-- Clone timeout lines 518-521: clear suppression, reconnect,
  state := IDLE, release the mutex, exit. -/
  | w_c5t (s : Sys) (hw : s.worker = WorkerPC.c5t) (hd : s.disc_pending = false) :
      Step s { s with
        suppress := false
        conn_pending := true
        rstate := RState.idle
        worker := WorkerPC.wNone }
  /-- Restore lines 525-539: state := MAC_RESTORING, stop forwarding,
  suppress, disconnect; then block on the disconnect wait. -/
  | w_r0 (s : Sys) (hw : s.worker = WorkerPC.r0) :
      Step s { s with
        rstate := RState.mac_restoring
        forwarding_active := false
        suppress := true
        disc_pending := true
        conn_pending := false
        worker := WorkerPC.r1 }
  /-- Restore lines 543-561: original MAC back, `s_mac_cloned := false`,
  DHCP client on, MAC-NAT cleared, AP management address restored. -/
  | w_r1 (s : Sys) (hw : s.worker = WorkerPC.r1) (hd : s.disc_pending = false) :
      Step s { s with
        sta_mac := HwMac.original
        mac_cloned := false
        worker := WorkerPC.r2 }
  /-- Restore lines 563-574: unpin the BSSID, clear suppression,
  reconnect; then block on the CONNECTED wait. -/
  | w_r2 (s : Sys) (hw : s.worker = WorkerPC.r2) (hd : s.disc_pending = false) :
      Step s { s with
        suppress := false
        conn_pending := true
        worker := WorkerPC.r3 }
  /-- Restore lines 576-584: whether the wait succeeded or timed out,
  state := IDLE, release the mutex, exit. -/
  | w_r3 (s : Sys) (hw : s.worker = WorkerPC.r3) :
      Step s { s with
        rstate := RState.idle
        worker := WorkerPC.wNone }

/-- States reachable from startup. -/
inductive Reachable : Sys → Prop
  | refl : Reachable initSys
  | tail {s s2 : Sys} : Reachable s → Step s s2 → Reachable s2

/-- The inductive invariant: forwarding is only ever active while the
STA is associated with the cloned MAC, and in the two windows that are
about to clear `s_mac_cloned` (`c4t`, `r1`) reconnection is suppressed
and forwarding is already off or a disconnect is still pending. -/
def SysInv (s : Sys) : Prop :=
  (s.forwarding_active = true → s.sta_connected = true ∧ s.mac_cloned = true) ∧
  (s.worker = WorkerPC.c4t → s.suppress = true ∧ s.conn_pending = false ∧
    (s.disc_pending = true ∨ s.forwarding_active = false)) ∧
  (s.worker = WorkerPC.r1 → s.suppress = true ∧ s.conn_pending = false ∧
    (s.disc_pending = true ∨ s.forwarding_active = false))

theorem reachable_inv {s : Sys} (h : Reachable s) : SysInv s := by
  induction h with
  | refl => simp [SysInv, initSys]
  | tail hr hstep ih =>
    rename_i s s2
    obtain ⟨i1, i2, i3⟩ := ih
    cases hstep with
    | deliver_connected h =>
      refine ⟨?_, ?_, ?_⟩
      · intro hf
        simp only at hf ⊢
        cases hmc : s.mac_cloned with
        | true => exact ⟨trivial, rfl⟩
        | false =>
          rw [hmc] at hf
          simp only [Bool.false_eq_true, if_false] at hf
          have hcl := (i1 hf).2
          rw [hmc] at hcl
          exact ⟨trivial, hcl⟩
      · intro hw
        simp only at hw
        obtain ⟨a, b, c⟩ := i2 hw
        rw [h] at b
        cases b
      · intro hw
        simp only at hw
        obtain ⟨a, b, c⟩ := i3 hw
        rw [h] at b
        cases b
    | deliver_disconnected h =>
      refine ⟨by simp, ?_, ?_⟩
      · intro hw
        simp only at hw
        obtain ⟨a, b, c⟩ := i2 hw
        exact ⟨a, by simp [a, b], by simp⟩
      · intro hw
        simp only at hw
        obtain ⟨a, b, c⟩ := i3 hw
        exact ⟨a, by simp [a, b], by simp⟩
    | ap_join_clone hw hs hm => exact ⟨i1, by simp, by simp⟩
    | ap_leave_restore hw hm => exact ⟨i1, by simp, by simp⟩
    | ap_leave_reclone hw hm => exact ⟨i1, by simp, by simp⟩
    | w_c0 hw => exact ⟨by simp, by simp, by simp⟩
    | w_c1_ok hw hd =>
      exact ⟨fun hf => ⟨(i1 hf).1, rfl⟩, by simp, by simp⟩
    | w_c1_fail hw hd => exact ⟨i1, by simp, by simp⟩
    | w_c2 hw hd => exact ⟨i1, by simp, by simp⟩
    | w_c3_ok hw hc => exact ⟨i1, by simp, by simp⟩
    | w_c3_timeout hw => exact ⟨i1, by simp, by simp⟩
    | w_c4t hw hd =>
      refine ⟨?_, by simp, by simp⟩
      intro hf
      simp only at hf
      obtain ⟨a, b, c⟩ := i2 hw
      rcases c with c | c
      · rw [hd] at c
        cases c
      · rw [c] at hf
        cases hf
    | w_c5t hw hd => exact ⟨i1, by simp, by simp⟩
    | w_r0 hw => exact ⟨by simp, by simp, by simp⟩
    | w_r1 hw hd =>
      refine ⟨?_, by simp, by simp⟩
      intro hf
      simp only at hf
      obtain ⟨a, b, c⟩ := i3 hw
      rcases c with c | c
      · rw [hd] at c
        cases c
      · rw [c] at hf
        cases hf
    | w_r2 hw hd => exact ⟨i1, by simp, by simp⟩
    | w_r3 hw => exact ⟨i1, by simp, by simp⟩

/-- The machine state reached by: startup auto-connect completes, a
client joins (clone spawned), the worker runs its first segment, the
disconnect event is delivered.  The worker is about to run the
`esp_wifi_set_mac` segment. -/
def sys_c1wait : Sys :=
  ⟨RState.mac_changing, false, false, false, true, false, false, false,
    HwMac.original, WorkerPC.c1⟩

theorem reachable_sys_c1wait : Reachable sys_c1wait :=
  Reachable.tail
    (Reachable.tail
      (Reachable.tail
        (Reachable.tail Reachable.refl (Step.deliver_connected initSys rfl))
        (Step.ap_join_clone _ rfl rfl rfl))
      (Step.w_c0 _ rfl))
    (Step.deliver_disconnected _ (Or.inl rfl))

/-- The state in the window after the CONNECTED handler started
forwarding (the set-MAC segment succeeded, the reconnect completed)
but before the worker wakes from its wait and sets
`s_state = STATE_BRIDGING`. -/
def sys_c1window : Sys :=
  ⟨RState.mac_changing, true, true, true, false, false, false, true,
    HwMac.cloned, WorkerPC.c3⟩

theorem reachable_sys_c1window : Reachable sys_c1window :=
  Reachable.tail
    (Reachable.tail
      (Reachable.tail reachable_sys_c1wait (Step.w_c1_ok _ rfl rfl))
      (Step.w_c2 _ rfl rfl))
    (Step.deliver_connected _ rfl)

/-- Claim C1 counterexample: a reachable state of the bridging machine
in which forwarding is active while the repeater state is still
MAC_CHANGING — the window between the STA_CONNECTED handler's
`forwarding_start()` (wifi_repeater_main.c:646-648) and the worker's
`s_state = STATE_BRIDGING` (line 499).  So `forwarding_active` does not
imply `state = BRIDGING` in every reachable state. -/
theorem c1_cex :
    Reachable sys_c1window ∧ sys_c1window.forwarding_active = true ∧
    sys_c1window.rstate = RState.mac_changing ∧
    sys_c1window.rstate ≠ RState.bridging :=
  ⟨reachable_sys_c1window, rfl, rfl, by decide⟩

/-- Claim C1 (amended): in every reachable state, if forwarding is
active then the STA is connected and the MAC is cloned.  The third
conjunct of the original claim fails: the state may still be
MAC_CHANGING (or MAC_RESTORING) in the window between the CONNECTED
handler starting forwarding and the worker updating `s_state`. -/
theorem c1_forwarding_invariant (s : Sys) (hr : Reachable s)
    (hf : s.forwarding_active = true) :
    s.sta_connected = true ∧ s.mac_cloned = true :=
  (reachable_inv hr).1 hf

/-- Claim C1 witness: the amended invariant applied at the concrete
reachable state with forwarding active. -/
theorem c1_forwarding_invariant_witness :
    (Reachable sys_c1window ∧ sys_c1window.forwarding_active = true) ∧
    (sys_c1window.sta_connected = true ∧ sys_c1window.mac_cloned = true) :=
  ⟨⟨reachable_sys_c1window, rfl⟩,
    c1_forwarding_invariant sys_c1window reachable_sys_c1window rfl⟩

/-- The state in which the failed-`esp_wifi_set_mac` path of the clone
worker exits (wifi_repeater_main.c:458-468): original MAC restored,
suppression cleared, reconnect issued, mutex released — but
`s_state` still MAC_CHANGING, because that fallback path never writes
`s_state`. -/
def sys_c2exit : Sys :=
  ⟨RState.mac_changing, false, false, false, false, true, false, false,
    HwMac.original, WorkerPC.wNone⟩

/-- Claim C2: on a clone run in which `esp_wifi_set_mac` fails, the
worker does restore the original STA MAC, clear reconnect suppression,
issue a plain reconnect and release the mutex — but it exits with the
repeater state still equal to MAC_CHANGING, not IDLE: the
`err != ESP_OK` branch never resets `s_state`, so the machine is left
wedged (a new clone requires `s_state == STATE_IDLE`).  The transition
`Step.w_c1_fail` changes no `rstate` at all. -/
theorem c2_set_mac_fail_exits_in_mac_changing :
    Reachable sys_c1wait ∧ sys_c1wait.worker = WorkerPC.c1 ∧
    Step sys_c1wait sys_c2exit ∧ Reachable sys_c2exit ∧
    sys_c2exit.sta_mac = HwMac.original ∧ sys_c2exit.suppress = false ∧
    sys_c2exit.conn_pending = true ∧ sys_c2exit.worker = WorkerPC.wNone ∧
    sys_c2exit.rstate = RState.mac_changing ∧ sys_c2exit.rstate ≠ RState.idle :=
  ⟨reachable_sys_c1wait, rfl, Step.w_c1_fail sys_c1wait rfl rfl,
    Reachable.tail reachable_sys_c1wait (Step.w_c1_fail sys_c1wait rfl rfl),
    rfl, rfl, rfl, rfl, rfl, by decide⟩

end WifiRep
